import Mathlib

/-!
Verification development for the Deape backend (Express server).

The embedding follows the final, self-contained server variant in
`src/server.js` (the webhook-relay variant: `POST /api/session`,
`POST /api/discord/webhook`, `POST /api/discord/:sessionId/wallets`,
`cleanupSessions`) together with the role-update relay queue in
`src/routes/dashboard.js` (`POST /role-update`, `GET /pending-role-updates`).

JavaScript `Map` objects are embedded as association lists with JS `Map`
semantics (`set` replaces the entry with a matching key in place,
otherwise appends; iteration order is insertion order).  Object identity
(several map entries pointing at the *same* mutable record) is embedded
with an explicit heap: maps store natural-number references into a list
of objects, and in-place mutation is `List.set` on the heap.

Possibly-`undefined` JavaScript values are `Option`s; JS string
truthiness (`!x` is true for `undefined` and `""`) is `optTruthy`.
-/

set_option linter.unusedVariables false

namespace Deape

/-- Association list with JavaScript `Map` semantics. -/
abbrev JsMap (α β : Type) := List (α × β)

namespace JsMap

variable {α β : Type} [DecidableEq α]

/-- `Map.prototype.set`: replace the entry for `k` in place if present,
otherwise append a fresh entry. -/
def set : JsMap α β → α → β → JsMap α β
  | [], k, v => [(k, v)]
  | p :: rest, k, v => if p.1 = k then (k, v) :: rest else p :: set rest k v

/-- `Map.prototype.get` (`none` models `undefined`). -/
def get : JsMap α β → α → Option β
  | [], _ => none
  | p :: rest, k => if p.1 = k then some p.2 else get rest k

/-- `Map.prototype.delete`. -/
def del : JsMap α β → α → JsMap α β
  | [], _ => []
  | p :: rest, k => if p.1 = k then del rest k else p :: del rest k

/-- `Array.from(map.values())`: values in insertion order. -/
def valuesList (m : JsMap α β) : List β :=
  m.map Prod.snd

/-- Number of entries stored under key `k` (at most 1 for maps reachable
through `set`/`del`). -/
def countKey (m : JsMap α β) (k : α) : Nat :=
  m.countP (fun p => decide (p.1 = k))

/-- Reachable JS maps have pairwise distinct keys. -/
def keysNodup (m : JsMap α β) : Prop :=
  (m.map Prod.fst).Nodup

instance (m : JsMap α β) : Decidable (keysNodup m) := by
  unfold keysNodup; infer_instance

end JsMap

/-! ## Data model (from `src/server.js`, final variant, and `src/routes/dashboard.js`) -/

/-- JS truthiness of a possibly-`undefined` string: `!x` is true exactly
when `x` is `undefined` or the empty string. -/
def optTruthy : Option String → Bool
  | none => false
  | some s => s ≠ ""

/-- `address.toLowerCase()` on an ASCII wallet address (written on the
underlying character list so that it evaluates in the kernel). -/
def lowerStr (s : String) : String :=
  ⟨s.data.map Char.toLower⟩

/-- The `walletInfo` object built by `POST /api/discord/:sessionId/wallets`:
`{address, nftBalance, stakedNFTs, totalPoints, tier, isMinter, totalNFTs}`. -/
structure WalletInfo where
  address : String
  nftBalance : Nat
  stakedNFTs : List String
  totalPoints : Nat
  tier : Nat
  isMinter : Bool
  totalNFTs : Nat
  deriving DecidableEq, Repr

/-- A session record as created by `POST /api/session` (which sets
`lastActivity`) or by the wallet-verification endpoint (which does not:
`lastActivity = none`). -/
structure Session where
  id : String
  discordId : Option String
  username : Option String
  wallets : List WalletInfo
  createdAt : Nat
  lastActivity : Option Nat
  deriving DecidableEq, Repr

/-- The record stored by `POST /api/discord/webhook`:
`{userId: discordId, username, timestamp}`. -/
structure DiscordEntry where
  userId : Option String
  username : Option String
  timestamp : Nat
  deriving DecidableEq, Repr

/-- A heap object: the `sessions` and `discordSessions` maps hold
references to records of either shape. -/
inductive Obj where
  | session (s : Session)
  | discordEntry (d : DiscordEntry)
  deriving DecidableEq, Repr

/-- Reading `.userId` off a record (`undefined` on a session record). -/
def Obj.userIdField : Obj → Option String
  | .session _ => none
  | .discordEntry d => d.userId

/-- Reading `.username` off a record. -/
def Obj.usernameField : Obj → Option String
  | .session s => s.username
  | .discordEntry d => d.username

/-- The server's mutable state: the heap of records plus the two maps
`sessions` (keyed by session id) and `discordSessions` (keyed by a
possibly-`undefined` string: discord id at session creation, session id
at the Discord webhook). -/
structure ServerState where
  heap : List Obj
  sessions : JsMap String Nat
  discordSessions : JsMap (Option String) Nat
  deriving DecidableEq, Repr

def emptyState : ServerState :=
  { heap := [], sessions := [], discordSessions := [] }

/-- Result of `getStakerInfo(address)`:
`[stakedTokens, totalPoints, tier, isMinter]`. -/
structure StakerInfo where
  stakedTokens : List Nat
  totalPoints : Nat
  tier : Nat
  isMinter : Bool
  deriving DecidableEq, Repr

/-! ## Session creation and Discord webhook (`src/server.js`) -/

/-- Response of `POST /api/session`. -/
structure CreateSessionResponse where
  sessionId : String
  session : Session
  deriving DecidableEq, Repr

/-- `POST /api/session`: build the session record, store it in `sessions`
under the fresh id and, `if (discordId)`, in `discordSessions` under the
discord id — both entries pointing at the same heap record. -/
def createSession (st : ServerState) (discordId username : Option String)
    (sessionId : String) (now : Nat) :
    CreateSessionResponse × ServerState :=
  let s : Session :=
    { id := sessionId, discordId := discordId, username := username,
      wallets := [], createdAt := now, lastActivity := some now }
  let r := st.heap.length
  let heap' := st.heap ++ [Obj.session s]
  let sessions' := st.sessions.set sessionId r
  let discord' :=
    if optTruthy discordId then st.discordSessions.set discordId r
    else st.discordSessions
  (⟨sessionId, s⟩,
   { heap := heap', sessions := sessions', discordSessions := discord' })

/-- Response of `POST /api/discord/webhook`:
`{success: true, sessionId, userId: discordId}`. -/
structure WebhookResponse where
  success : Bool
  sessionId : Option String
  userId : Option String
  deriving DecidableEq, Repr

/-- `POST /api/discord/webhook` (final variant): no field validation;
stores `{userId: discordId, username, timestamp}` in `discordSessions`
under the *session id* and never touches the primary `sessions` map. -/
def discordWebhook (st : ServerState)
    (sessionId username discordId : Option String) (now : Nat) :
    WebhookResponse × ServerState :=
  let entry : DiscordEntry :=
    { userId := discordId, username := username, timestamp := now }
  let r := st.heap.length
  ({ success := true, sessionId := sessionId, userId := discordId },
   { st with heap := st.heap ++ [Obj.discordEntry entry],
             discordSessions := st.discordSessions.set sessionId r })

/-! ## Wallet verification (`POST /api/discord/:sessionId/wallets`) -/

/-- The body of the `axios.post(DISCORD_WEBHOOK_URL, ...)` relay call:
`{type: 'ROLE_UPDATE', userId, totalNFTs}`. -/
structure RoleUpdateMsg where
  msgType : String
  userId : Option String
  totalNFTs : Nat
  deriving DecidableEq, Repr

/-- HTTP outcome of the wallet-verification endpoint. -/
inductive VerifyResult where
  /-- 400 -/
  | badRequest (error : String)
  /-- 404 -/
  | notFound (error : String)
  /-- 500 (outer catch) -/
  | serverError (error details : String)
  /-- `res.json({...session, walletInfo})`, with `webhookError` present
  exactly when the relay post failed. -/
  | ok (session : Session) (walletInfo : WalletInfo)
      (webhookError : Option String)
  deriving DecidableEq, Repr

/-- `session.wallets.findIndex(w => w.address?.toLowerCase() ===
address.toLowerCase())`, as an `Option Nat` instead of `-1`/index: the
index of the first case-insensitive match. -/
def findWalletIndex (ws : List WalletInfo) (address : String) : Option Nat :=
  match ws with
  | [] => none
  | w :: rest =>
    if lowerStr w.address = lowerStr address then some 0
    else (findWalletIndex rest address).map (· + 1)

/-- The wallet-list mutation of the endpoint: replace in place at the
found index, else push. -/
def upsertWalletList (ws : List WalletInfo) (wi : WalletInfo) :
    List WalletInfo :=
  match findWalletIndex ws wi.address with
  | some i => ws.set i wi
  | none => ws ++ [wi]

/-- "At most one wallet record per case-insensitive address": the
lowercased addresses of the wallet list are pairwise distinct. -/
def walletsUniqueCI (ws : List WalletInfo) : Prop :=
  (ws.map (fun w => lowerStr w.address)).Nodup

instance (ws : List WalletInfo) : Decidable (walletsUniqueCI ws) := by
  unfold walletsUniqueCI; infer_instance

/-- The in-place session mutation performed by the endpoint:
`session.wallets[i] = walletInfo` or `session.wallets.push(walletInfo)`. -/
def updSession (s : Session) (wi : WalletInfo) : Session :=
  { s with wallets := upsertWalletList s.wallets wi }

/-- The `walletInfo` object computed from the chain query results. -/
def mkWalletInfo (address : String) (nftBalance : Nat) (info : StakerInfo) :
    WalletInfo :=
  { address := address
    nftBalance := nftBalance
    stakedNFTs := info.stakedTokens.map (fun t => toString t)
    totalPoints := info.totalPoints
    tier := info.tier
    isMinter := info.isMinter
    totalNFTs := nftBalance + info.stakedTokens.length }

/-- `POST /api/discord/:sessionId/wallets` (final variant).

The chain queries and the relay post are I/O; their outcomes are passed
in as `chain` (result of `Promise.all([balanceOf, getStakerInfo])`) and
`webhook` (outcome of the `axios.post`).  Returns the HTTP result, the
new state, and the list of relay messages posted (the endpoint posts
exactly one whenever it reaches the relay step, whether or not the post
succeeds). -/
def verifyWallet (st : ServerState) (sessionId : String)
    (address : Option String) (now : Nat)
    (chain : Except String (Nat × StakerInfo))
    (webhook : Except String Unit) :
    VerifyResult × ServerState × List RoleUpdateMsg :=
  match address with
  | none => (.badRequest "Wallet address is required", st, [])
  | some a =>
    if a = "" then (.badRequest "Wallet address is required", st, [])
    else
      match st.discordSessions.get (some sessionId) with
      | none => (.notFound "Discord session not found", st, [])
      | some dref =>
        match st.heap[dref]? with
        | none =>
          (.serverError "Failed to verify wallet" "missing record", st, [])
        | some dobj =>
          -- `let session = sessions.get(sessionId)`; create it if absent
          -- (note: no `lastActivity` field on the fresh record)
          let found := st.sessions.get sessionId
          let ref := match found with
            | some r => r
            | none => st.heap.length
          let st1 := match found with
            | some _ => st
            | none =>
              let s : Session :=
                { id := sessionId, discordId := dobj.userIdField,
                  username := dobj.usernameField, wallets := [],
                  createdAt := now, lastActivity := none }
              { st with heap := st.heap ++ [Obj.session s],
                        sessions := st.sessions.set sessionId st.heap.length }
          match chain with
          | .error e => (.serverError "Failed to verify wallet" e, st1, [])
          | .ok (nftBalance, info) =>
            match st1.heap[ref]? with
            | some (Obj.session s) =>
              let wi := mkWalletInfo a nftBalance info
              let s' := { s with wallets := upsertWalletList s.wallets wi }
              let st2 :=
                { st1 with heap := st1.heap.set ref (Obj.session s') }
              let msg : RoleUpdateMsg :=
                { msgType := "ROLE_UPDATE", userId := dobj.userIdField,
                  totalNFTs := wi.totalNFTs }
              match webhook with
              | .ok _ => (.ok s' wi none, st2, [msg])
              | .error e => (.ok s' wi (some e), st2, [msg])
            | _ =>
              (.serverError "Failed to verify wallet" "invalid session record",
               st1, [])

/-! ## Expiry sweeper (`cleanupSessions` in `src/server.js`) -/

def SESSION_TIMEOUT : Nat := 24 * 60 * 60 * 1000

/-- `now - session.lastActivity > SESSION_TIMEOUT` under JS arithmetic: a
missing `lastActivity` gives `NaN`, for which the comparison is false,
and `Nat` subtraction truncates exactly where the JS difference would be
negative (also making the comparison false). -/
def sessionExpired (now : Nat) (la : Option Nat) : Bool :=
  match la with
  | some t => SESSION_TIMEOUT < now - t
  | none => false

/-- One iteration of the `sessions.forEach` sweep: delete an expired
session from `sessions` and, `if (session.discordId)`, delete its
discord-id key from `discordSessions`. -/
def cleanupStep (heap : List Obj) (now : Nat)
    (maps : JsMap String Nat × JsMap (Option String) Nat)
    (e : String × Nat) :
    JsMap String Nat × JsMap (Option String) Nat :=
  match heap[e.2]? with
  | some (Obj.session s) =>
    if sessionExpired now s.lastActivity then
      (maps.1.del e.1,
       if optTruthy s.discordId then maps.2.del s.discordId else maps.2)
    else maps
  | _ => maps

/-- `cleanupSessions`: sweep every entry of `sessions` (the heap is never
mutated by the sweep, and only the entry under scrutiny is ever deleted
from `sessions`, so iterating the initial entry list matches the JS
`forEach` over the live map). -/
def cleanupSessions (now : Nat) (st : ServerState) : ServerState :=
  let maps :=
    st.sessions.foldl (cleanupStep st.heap now) (st.sessions, st.discordSessions)
  { st with sessions := maps.1, discordSessions := maps.2 }

/-! ## Role-update relay queue (`src/routes/dashboard.js`) -/

/-- An entry of the `pendingRoleUpdates` map:
`{userId, totalNFTs, timestamp}`. -/
structure PendingUpdate where
  userId : String
  totalNFTs : Int
  timestamp : Nat
  deriving DecidableEq, Repr

/-- HTTP outcome of `POST /role-update`. -/
inductive RoleUpdateResult where
  | badRequest (error : String)
  | ok
  deriving DecidableEq, Repr

/-- `POST /role-update`: `if (!userId || totalNFTs === undefined)` reject
with 400, else `pendingRoleUpdates.set(userId, {userId, totalNFTs,
timestamp: Date.now()})`. -/
def roleUpdatePost (q : JsMap String PendingUpdate)
    (userId : Option String) (totalNFTs : Option Int) (now : Nat) :
    RoleUpdateResult × JsMap String PendingUpdate :=
  if ¬ optTruthy userId ∨ totalNFTs = none then
    (.badRequest "Missing required fields", q)
  else
    match userId, totalNFTs with
    | some u, some t =>
      (.ok, q.set u { userId := u, totalNFTs := t, timestamp := now })
    | _, _ => (.badRequest "Missing required fields", q)

/-- `GET /pending-role-updates`: `Array.from(pendingRoleUpdates.values())`
then `pendingRoleUpdates.clear()`. -/
def drainPendingRoleUpdates (q : JsMap String PendingUpdate) :
    List PendingUpdate × JsMap String PendingUpdate :=
  (q.valuesList, [])

/-- The discord user a verification for `sessionId` relays role updates
to: the `userId` field of `discordSessions.get(sessionId)`. -/
def discordUserOf (st : ServerState) (sessionId : String) : Option String :=
  match st.discordSessions.get (some sessionId) with
  | some dref =>
    match st.heap[dref]? with
    | some o => o.userIdField
    | none => none
  | none => none

/-- Whether a `sessions` entry holds an expired session (decides whether
the sweep's iteration over that entry deletes anything). -/
def entryExpiresB (heap : List Obj) (now : Nat) (e : String × Nat) : Bool :=
  match heap[e.2]? with
  | some (Obj.session s) => sessionExpired now s.lastActivity
  | _ => false

/-- The `discordSessions` key the sweep would delete when the given
`sessions` entry expires (`none` when `session.discordId` is falsy). -/
def entryDiscordKey (heap : List Obj) (e : String × Nat) :
    Option (Option String) :=
  match heap[e.2]? with
  | some (Obj.session s) =>
    if optTruthy s.discordId then some s.discordId else none
  | _ => none

/-- Concrete session used by witnesses: one verified wallet `0xABC`. -/
def exSession : Session :=
  ⟨"s1", some "d1", some "alice", [⟨"0xABC", 1, [], 0, 0, false, 1⟩],
   5, some 5⟩

/-- Concrete server state used by witnesses: a discord entry for session
`s1` (as left by the Discord webhook) plus the session record, indexed
by session id and by discord id. -/
def exState : ServerState :=
  ⟨[Obj.discordEntry ⟨some "d1", some "alice", 0⟩, Obj.session exSession],
   [("s1", 1)], [(some "s1", 0), (some "d1", 1)]⟩

/-- Concrete wallet record used by witnesses: re-verification of the same
address in different case. -/
def exWallet : WalletInfo := mkWalletInfo "0xabc" 2 ⟨[], 0, 0, false⟩

/-- Concrete state used by the C3 witness: the Discord index holds a
webhook-created entry for session `s1` (as `discordWebhook` leaves it). -/
def exWebhookState : ServerState :=
  ⟨[Obj.discordEntry ⟨some "d1", some "alice", 0⟩], [], [(some "s1", 0)]⟩

/-- Concrete state used by the C7 witness: one expired session (`sA`) and
one live session (`sB`) with distinct discord ids, both indexed. -/
def exSweepState : ServerState :=
  ⟨[Obj.session ⟨"sA", some "dA", some "al", [], 0, some 0⟩,
    Obj.session ⟨"sB", some "dB", some "bo", [], 0, some 86400001⟩],
   [("sA", 0), ("sB", 1)], [(some "dA", 0), (some "dB", 1)]⟩

/-! ## Lemmas about the JS map embedding -/

namespace JsMap

variable {α β : Type} [DecidableEq α]

@[simp] theorem get_nil (k : α) : get ([] : JsMap α β) k = none := rfl

theorem get_set_self (m : JsMap α β) (k : α) (v : β) :
    get (set m k v) k = some v := by
  induction m with
  | nil => simp [set, get]
  | cons p rest ih =>
    by_cases h : p.1 = k
    · simp [set, get, h]
    · simp [set, get, h, ih]

theorem get_set_ne (m : JsMap α β) (k k' : α) (v : β) (h : k' ≠ k) :
    get (set m k v) k' = get m k' := by
  have h1 : ¬ (k = k') := fun hh => h hh.symm
  induction m with
  | nil => simp [set, get, h1]
  | cons p rest ih =>
    by_cases hp : p.1 = k
    · have h2 : ¬ (p.1 = k') := by rw [hp]; exact h1
      simp [set, get, hp, h1, h2]
    · simp [set, get, hp, ih]

theorem get_del_self (m : JsMap α β) (k : α) :
    get (del m k) k = none := by
  induction m with
  | nil => simp [del, get]
  | cons p rest ih =>
    by_cases h : p.1 = k
    · simp [del, h, ih]
    · simp [del, get, h, ih]

theorem get_del_ne (m : JsMap α β) (k k' : α) (h : k' ≠ k) :
    get (del m k) k' = get m k' := by
  induction m with
  | nil => simp [del]
  | cons p rest ih =>
    by_cases hp : p.1 = k
    · have h1 : ¬ (k = k') := fun hh => h hh.symm
      have h2 : ¬ (p.1 = k') := by rw [hp]; exact h1
      simp [del, get, hp, h1, h2, ih]
    · simp [del, get, hp, ih]

theorem get_none_del (m : JsMap α β) (k k' : α) (h : get m k = none) :
    get (del m k') k = none := by
  by_cases hk : k = k'
  · subst hk; exact get_del_self m k
  · rw [get_del_ne m k' k hk]; exact h

theorem get_eq_none_of_not_mem_keys (m : JsMap α β) (k : α)
    (h : k ∉ m.map Prod.fst) : get m k = none := by
  induction m with
  | nil => rfl
  | cons p rest ih =>
    simp only [List.map_cons, List.mem_cons] at h
    push_neg at h
    have h1 : ¬ (p.1 = k) := fun hh => h.1 hh.symm
    simp [get, h1, ih h.2]

theorem countKey_eq_zero_of_not_mem (m : JsMap α β) (k : α)
    (h : k ∉ m.map Prod.fst) : countKey m k = 0 := by
  induction m with
  | nil => rfl
  | cons p rest ih =>
    simp only [List.map_cons, List.mem_cons] at h
    push_neg at h
    have h1 : ¬ (p.1 = k) := fun hh => h.1 hh.symm
    have h2 := ih h.2
    unfold countKey at h2 ⊢
    rw [List.countP_cons]
    simp [h1, h2]

theorem countKey_set_self (m : JsMap α β) (k : α) (v : β)
    (hnd : keysNodup m) : countKey (set m k v) k = 1 := by
  induction m with
  | nil => simp [set, countKey, List.countP_cons]
  | cons p rest ih =>
    simp only [keysNodup, List.map_cons, List.nodup_cons] at hnd
    by_cases h : p.1 = k
    · subst h
      have h0 : countKey rest p.1 = 0 :=
        countKey_eq_zero_of_not_mem rest p.1 hnd.1
      unfold countKey at h0 ⊢
      simp [set, List.countP_cons, h0]
    · have h1 := ih hnd.2
      unfold countKey at h1 ⊢
      simp [set, h, List.countP_cons, h1]

theorem keys_set_mem (m : JsMap α β) (k : α) (v : β)
    (h : k ∈ m.map Prod.fst) :
    (set m k v).map Prod.fst = m.map Prod.fst := by
  induction m with
  | nil => simp at h
  | cons p rest ih =>
    by_cases hp : p.1 = k
    · simp [set, hp]
    · simp only [List.map_cons, List.mem_cons] at h
      rcases h with h | h
      · exact absurd h.symm hp
      · simp [set, hp, ih h]

theorem keys_set_not_mem (m : JsMap α β) (k : α) (v : β)
    (h : k ∉ m.map Prod.fst) :
    (set m k v).map Prod.fst = m.map Prod.fst ++ [k] := by
  induction m with
  | nil => simp [set]
  | cons p rest ih =>
    simp only [List.map_cons, List.mem_cons] at h
    push_neg at h
    have h1 : ¬ (p.1 = k) := fun hh => h.1 hh.symm
    simp [set, h1, ih h.2]

theorem keysNodup_set (m : JsMap α β) (k : α) (v : β)
    (hnd : keysNodup m) : keysNodup (set m k v) := by
  by_cases h : k ∈ m.map Prod.fst
  · unfold keysNodup at hnd ⊢
    rw [keys_set_mem m k v h]
    exact hnd
  · unfold keysNodup at hnd ⊢
    rw [keys_set_not_mem m k v h]
    simp [List.nodup_append, hnd, h]

theorem get_mem (m : JsMap α β) (k : α) (v : β) (h : get m k = some v) :
    (k, v) ∈ m := by
  induction m with
  | nil => simp [get] at h
  | cons p rest ih =>
    obtain ⟨a, b⟩ := p
    by_cases hp : a = k
    · subst hp
      simp [get] at h
      subst h
      exact List.mem_cons_self _ _
    · simp [get, hp] at h
      exact List.mem_cons_of_mem _ (ih h)

theorem get_of_mem_nodup (m : JsMap α β) (e : α × β)
    (hnd : keysNodup m) (hmem : e ∈ m) : get m e.1 = some e.2 := by
  induction m with
  | nil => simp at hmem
  | cons p rest ih =>
    simp only [keysNodup, List.map_cons, List.nodup_cons] at hnd
    rcases List.mem_cons.mp hmem with he | he
    · subst he; simp [get]
    · have hne : ¬ (p.1 = e.1) := by
        intro hq
        apply hnd.1
        rw [hq]
        exact List.mem_map_of_mem Prod.fst he
      simpa [get, hne] using ih hnd.2 he

end JsMap

/-! ## Lemmas about lists, wallet lookup and upsert -/

theorem set_getElem_self {γ : Type} (l : List γ) (i : Nat) (v : γ)
    (h : l[i]? = some v) : l.set i v = l := by
  induction l generalizing i with
  | nil => simp at h
  | cons x xs ih =>
    cases i with
    | zero =>
      rw [List.getElem?_cons_zero] at h
      injection h with h
      rw [List.set_cons_zero, ← h]
    | succ j =>
      rw [List.getElem?_cons_succ] at h
      rw [List.set_cons_succ, ih j h]

theorem set_concat_length {γ : Type} (l : List γ) (x y : γ) :
    (l ++ [x]).set l.length y = l ++ [y] := by
  induction l with
  | nil => rfl
  | cons a as ih =>
    simp only [List.cons_append, List.length_cons, List.set_cons_succ, ih]

theorem findWalletIndex_none_iff (ws : List WalletInfo) (a : String) :
    findWalletIndex ws a = none ↔
      ∀ w ∈ ws, lowerStr w.address ≠ lowerStr a := by
  induction ws with
  | nil => simp [findWalletIndex]
  | cons w rest ih =>
    by_cases h : lowerStr w.address = lowerStr a
    · simp [findWalletIndex, h]
    · simp [findWalletIndex, h, ih]

theorem findWalletIndex_some_spec (ws : List WalletInfo) (a : String)
    (i : Nat) (h : findWalletIndex ws a = some i) :
    ∃ w, ws[i]? = some w ∧ lowerStr w.address = lowerStr a := by
  induction ws generalizing i with
  | nil => simp [findWalletIndex] at h
  | cons w rest ih =>
    by_cases hw : lowerStr w.address = lowerStr a
    · simp only [findWalletIndex, if_pos hw] at h
      injection h with h
      subst h
      exact ⟨w, by simp, hw⟩
    · simp only [findWalletIndex, if_neg hw] at h
      rcases Option.map_eq_some'.mp h with ⟨j, hj, hij⟩
      subst hij
      obtain ⟨w', hw', hp⟩ := ih j hj
      exact ⟨w', by simpa using hw', hp⟩

theorem upsertWalletList_eq_set (ws : List WalletInfo) (wi : WalletInfo)
    (i : Nat) (h : findWalletIndex ws wi.address = some i) :
    upsertWalletList ws wi = ws.set i wi := by
  unfold upsertWalletList
  rw [h]

theorem upsertWalletList_eq_append (ws : List WalletInfo) (wi : WalletInfo)
    (h : findWalletIndex ws wi.address = none) :
    upsertWalletList ws wi = ws ++ [wi] := by
  unfold upsertWalletList
  rw [h]

theorem upsertWalletList_unique (ws : List WalletInfo) (wi : WalletInfo)
    (h : walletsUniqueCI ws) : walletsUniqueCI (upsertWalletList ws wi) := by
  unfold walletsUniqueCI at h ⊢
  cases hidx : findWalletIndex ws wi.address with
  | none =>
    rw [upsertWalletList_eq_append ws wi hidx, List.map_append]
    have hnm : lowerStr wi.address ∉ ws.map (fun w => lowerStr w.address) := by
      intro hmem
      rcases List.mem_map.mp hmem with ⟨w, hwmem, hweq⟩
      exact (findWalletIndex_none_iff ws wi.address).mp hidx w hwmem hweq
    simp [List.nodup_append, h, hnm]
  | some i =>
    rw [upsertWalletList_eq_set ws wi i hidx, List.map_set]
    obtain ⟨w, hget, heq⟩ := findWalletIndex_some_spec ws wi.address i hidx
    have hmap : (ws.map (fun w => lowerStr w.address))[i]? =
        some (lowerStr wi.address) := by
      rw [List.getElem?_map, hget, Option.map_some']
      rw [heq]
    rw [set_getElem_self _ i _ hmap]
    exact h

/-! ## Characterization of the wallet-verification endpoint -/

/-- Unfolding of `verifyWallet` when the address is non-empty, the
discord session and the session record both resolve, and the chain
queries succeed. -/
theorem verifyWallet_found (st : ServerState) (sessionId a : String)
    (now : Nat) (n : Nat) (info : StakerInfo) (webhook : Except String Unit)
    (dref ref : Nat) (dobj : Obj) (s : Session)
    (ha : a ≠ "")
    (hd : st.discordSessions.get (some sessionId) = some dref)
    (hdo : st.heap[dref]? = some dobj)
    (hs : st.sessions.get sessionId = some ref)
    (hso : st.heap[ref]? = some (Obj.session s)) :
    verifyWallet st sessionId (some a) now (.ok (n, info)) webhook =
      (let wi := mkWalletInfo a n info
       let s' := { s with wallets := upsertWalletList s.wallets wi }
       let st2 := { st with heap := st.heap.set ref (Obj.session s') }
       let msg : RoleUpdateMsg :=
         ⟨"ROLE_UPDATE", dobj.userIdField, wi.totalNFTs⟩
       match webhook with
       | .ok _ => (.ok s' wi none, st2, [msg])
       | .error e => (.ok s' wi (some e), st2, [msg])) := by
  simp only [verifyWallet, ha, if_false, hd, hdo, hs, hso]

/-- Unfolding of `verifyWallet` on the empty address (`!address`). -/
theorem verifyWallet_addr_empty (st : ServerState) (sessionId : String)
    (now : Nat) (chain : Except String (Nat × StakerInfo))
    (webhook : Except String Unit) :
    verifyWallet st sessionId (some "") now chain webhook =
      (.badRequest "Wallet address is required", st, []) := by
  simp [verifyWallet]

/-- Unfolding of `verifyWallet` when no discord session exists. -/
theorem verifyWallet_no_discord (st : ServerState) (sessionId a : String)
    (now : Nat) (chain : Except String (Nat × StakerInfo))
    (webhook : Except String Unit) (ha : a ≠ "")
    (hd : st.discordSessions.get (some sessionId) = none) :
    verifyWallet st sessionId (some a) now chain webhook =
      (.notFound "Discord session not found", st, []) := by
  simp [verifyWallet, ha, hd]

/-- Unfolding of `verifyWallet` on a dangling discord-session reference
(unreachable in the JS program, where map values are the records). -/
theorem verifyWallet_dangling (st : ServerState) (sessionId a : String)
    (now : Nat) (chain : Except String (Nat × StakerInfo))
    (webhook : Except String Unit) (dref : Nat) (ha : a ≠ "")
    (hd : st.discordSessions.get (some sessionId) = some dref)
    (hdo : st.heap[dref]? = none) :
    verifyWallet st sessionId (some a) now chain webhook =
      (.serverError "Failed to verify wallet" "missing record", st, []) := by
  simp [verifyWallet, ha, hd, hdo]

/-- Unfolding of `verifyWallet` on a dangling session reference. -/
theorem verifyWallet_badref_none (st : ServerState) (sessionId a : String)
    (now n : Nat) (info : StakerInfo) (webhook : Except String Unit)
    (dref ref : Nat) (dobj : Obj) (ha : a ≠ "")
    (hd : st.discordSessions.get (some sessionId) = some dref)
    (hdo : st.heap[dref]? = some dobj)
    (hs : st.sessions.get sessionId = some ref)
    (hso : st.heap[ref]? = none) :
    verifyWallet st sessionId (some a) now (.ok (n, info)) webhook =
      (.serverError "Failed to verify wallet" "invalid session record",
       st, []) := by
  simp [verifyWallet, ha, hd, hdo, hs, hso]

/-- Unfolding of `verifyWallet` when the session reference resolves to a
discord-entry record (the JS code would throw on `.wallets`). -/
theorem verifyWallet_badref_discord (st : ServerState) (sessionId a : String)
    (now n : Nat) (info : StakerInfo) (webhook : Except String Unit)
    (dref ref : Nat) (dobj : Obj) (de : DiscordEntry) (ha : a ≠ "")
    (hd : st.discordSessions.get (some sessionId) = some dref)
    (hdo : st.heap[dref]? = some dobj)
    (hs : st.sessions.get sessionId = some ref)
    (hso : st.heap[ref]? = some (Obj.discordEntry de)) :
    verifyWallet st sessionId (some a) now (.ok (n, info)) webhook =
      (.serverError "Failed to verify wallet" "invalid session record",
       st, []) := by
  simp [verifyWallet, ha, hd, hdo, hs, hso]

/-- Unfolding of `verifyWallet` when no session record exists yet: one is
created (without `lastActivity`), receives the single upserted wallet,
and is stored at the end of the heap. -/
theorem verifyWallet_create (st : ServerState) (sessionId a : String)
    (now n : Nat) (info : StakerInfo) (webhook : Except String Unit)
    (dref : Nat) (dobj : Obj) (ha : a ≠ "")
    (hd : st.discordSessions.get (some sessionId) = some dref)
    (hdo : st.heap[dref]? = some dobj)
    (hs : st.sessions.get sessionId = none) :
    verifyWallet st sessionId (some a) now (.ok (n, info)) webhook =
      (let wi := mkWalletInfo a n info
       let s' : Session := ⟨sessionId, dobj.userIdField, dobj.usernameField,
         [wi], now, none⟩
       let st2 : ServerState := ⟨st.heap ++ [Obj.session s'],
         st.sessions.set sessionId st.heap.length, st.discordSessions⟩
       let msg : RoleUpdateMsg := ⟨"ROLE_UPDATE", dobj.userIdField,
         wi.totalNFTs⟩
       match webhook with
       | .ok _ => (.ok s' wi none, st2, [msg])
       | .error e => (.ok s' wi (some e), st2, [msg])) := by
  simp only [verifyWallet, ha, if_false, hd, hdo, hs,
    List.getElem?_concat_length]
  simp only [upsertWalletList, findWalletIndex, List.nil_append,
    set_concat_length]

/-! ## Lemmas about the expiry sweep -/

theorem cleanupStep_none_eq (heap : List Obj) (now : Nat)
    (maps : JsMap String Nat × JsMap (Option String) Nat)
    (e : String × Nat) (hh : heap[e.2]? = none) :
    cleanupStep heap now maps e = maps := by
  unfold cleanupStep
  rw [hh]

theorem cleanupStep_discord_eq (heap : List Obj) (now : Nat)
    (maps : JsMap String Nat × JsMap (Option String) Nat)
    (e : String × Nat) (de : DiscordEntry)
    (hh : heap[e.2]? = some (Obj.discordEntry de)) :
    cleanupStep heap now maps e = maps := by
  unfold cleanupStep
  rw [hh]

theorem cleanupStep_session_eq (heap : List Obj) (now : Nat)
    (maps : JsMap String Nat × JsMap (Option String) Nat)
    (e : String × Nat) (s : Session)
    (hh : heap[e.2]? = some (Obj.session s)) :
    cleanupStep heap now maps e =
      if sessionExpired now s.lastActivity = true then
        (maps.1.del e.1,
         if optTruthy s.discordId = true then maps.2.del s.discordId
         else maps.2)
      else maps := by
  unfold cleanupStep
  rw [hh]

theorem entryDiscordKey_session_eq (heap : List Obj) (e : String × Nat)
    (s : Session) (hh : heap[e.2]? = some (Obj.session s)) :
    entryDiscordKey heap e =
      if optTruthy s.discordId = true then some s.discordId else none := by
  unfold entryDiscordKey
  rw [hh]

theorem cleanupStep_fst_none (heap : List Obj) (now : Nat)
    (maps : JsMap String Nat × JsMap (Option String) Nat)
    (e : String × Nat) (k : String) (h : maps.1.get k = none) :
    (cleanupStep heap now maps e).1.get k = none := by
  cases hh : heap[e.2]? with
  | none => rw [cleanupStep_none_eq heap now maps e hh]; exact h
  | some o =>
    cases o with
    | discordEntry de =>
      rw [cleanupStep_discord_eq heap now maps e de hh]; exact h
    | session s =>
      rw [cleanupStep_session_eq heap now maps e s hh]
      by_cases hexp : sessionExpired now s.lastActivity = true
      · rw [if_pos hexp]
        exact JsMap.get_none_del maps.1 k e.1 h
      · rw [if_neg hexp]
        exact h

theorem cleanupStep_snd_none (heap : List Obj) (now : Nat)
    (maps : JsMap String Nat × JsMap (Option String) Nat)
    (e : String × Nat) (dk : Option String) (h : maps.2.get dk = none) :
    (cleanupStep heap now maps e).2.get dk = none := by
  cases hh : heap[e.2]? with
  | none => rw [cleanupStep_none_eq heap now maps e hh]; exact h
  | some o =>
    cases o with
    | discordEntry de =>
      rw [cleanupStep_discord_eq heap now maps e de hh]; exact h
    | session s =>
      rw [cleanupStep_session_eq heap now maps e s hh]
      by_cases hexp : sessionExpired now s.lastActivity = true
      · rw [if_pos hexp]
        by_cases htr : optTruthy s.discordId = true
        · rw [if_pos htr]
          exact JsMap.get_none_del maps.2 dk s.discordId h
        · rw [if_neg htr]
          exact h
      · rw [if_neg hexp]
        exact h

theorem cleanupStep_fst_get (heap : List Obj) (now : Nat)
    (maps : JsMap String Nat × JsMap (Option String) Nat)
    (e : String × Nat) (k : String)
    (hne : entryExpiresB heap now e = true → e.1 ≠ k) :
    (cleanupStep heap now maps e).1.get k = maps.1.get k := by
  cases hh : heap[e.2]? with
  | none => rw [cleanupStep_none_eq heap now maps e hh]
  | some o =>
    cases o with
    | discordEntry de => rw [cleanupStep_discord_eq heap now maps e de hh]
    | session s =>
      rw [cleanupStep_session_eq heap now maps e s hh]
      by_cases hexp : sessionExpired now s.lastActivity = true
      · rw [if_pos hexp]
        have hek : e.1 ≠ k := by
          apply hne
          unfold entryExpiresB
          rw [hh]
          exact hexp
        exact JsMap.get_del_ne maps.1 e.1 k (fun hx => hek hx.symm)
      · rw [if_neg hexp]

theorem cleanupStep_snd_get (heap : List Obj) (now : Nat)
    (maps : JsMap String Nat × JsMap (Option String) Nat)
    (e : String × Nat) (dk : Option String)
    (hne : entryExpiresB heap now e = true →
      entryDiscordKey heap e ≠ some dk) :
    (cleanupStep heap now maps e).2.get dk = maps.2.get dk := by
  cases hh : heap[e.2]? with
  | none => rw [cleanupStep_none_eq heap now maps e hh]
  | some o =>
    cases o with
    | discordEntry de => rw [cleanupStep_discord_eq heap now maps e de hh]
    | session s =>
      rw [cleanupStep_session_eq heap now maps e s hh]
      by_cases hexp : sessionExpired now s.lastActivity = true
      · rw [if_pos hexp]
        have hkey : entryDiscordKey heap e ≠ some dk := by
          apply hne
          unfold entryExpiresB
          rw [hh]
          exact hexp
        by_cases htr : optTruthy s.discordId = true
        · rw [if_pos htr]
          have hdk : s.discordId ≠ dk := by
            intro hx
            apply hkey
            rw [entryDiscordKey_session_eq heap e s hh, if_pos htr, hx]
          exact JsMap.get_del_ne maps.2 s.discordId dk
            (fun hx => hdk hx.symm)
        · rw [if_neg htr]
      · rw [if_neg hexp]

theorem foldl_cleanup_fst_none (heap : List Obj) (now : Nat)
    (l : List (String × Nat))
    (maps : JsMap String Nat × JsMap (Option String) Nat) (k : String)
    (h : maps.1.get k = none) :
    (l.foldl (cleanupStep heap now) maps).1.get k = none := by
  induction l generalizing maps with
  | nil => exact h
  | cons e rest ih =>
    rw [List.foldl_cons]
    exact ih _ (cleanupStep_fst_none heap now maps e k h)

theorem foldl_cleanup_snd_none (heap : List Obj) (now : Nat)
    (l : List (String × Nat))
    (maps : JsMap String Nat × JsMap (Option String) Nat)
    (dk : Option String) (h : maps.2.get dk = none) :
    (l.foldl (cleanupStep heap now) maps).2.get dk = none := by
  induction l generalizing maps with
  | nil => exact h
  | cons e rest ih =>
    rw [List.foldl_cons]
    exact ih _ (cleanupStep_snd_none heap now maps e dk h)

theorem foldl_cleanup_fst_expired (heap : List Obj) (now : Nat)
    (l : List (String × Nat)) (sid : String) (ref : Nat) (s : Session)
    (hso : heap[ref]? = some (Obj.session s))
    (hexp : sessionExpired now s.lastActivity = true)
    (hmem : (sid, ref) ∈ l) :
    ∀ maps, (l.foldl (cleanupStep heap now) maps).1.get sid = none := by
  induction l with
  | nil => simp at hmem
  | cons e rest ih =>
    intro maps
    rw [List.foldl_cons]
    rcases List.mem_cons.mp hmem with he | he
    · apply foldl_cleanup_fst_none
      rw [← he, cleanupStep_session_eq heap now maps (sid, ref) s hso,
        if_pos hexp]
      exact JsMap.get_del_self maps.1 sid
    · exact ih he _

theorem foldl_cleanup_snd_expired (heap : List Obj) (now : Nat)
    (l : List (String × Nat)) (sid : String) (ref : Nat) (s : Session)
    (d : String) (hso : heap[ref]? = some (Obj.session s))
    (hexp : sessionExpired now s.lastActivity = true)
    (hd : s.discordId = some d) (hdt : d ≠ "")
    (hmem : (sid, ref) ∈ l) :
    ∀ maps, (l.foldl (cleanupStep heap now) maps).2.get (some d) = none := by
  have htr : optTruthy s.discordId = true := by
    rw [hd]
    simp [optTruthy, hdt]
  induction l with
  | nil => simp at hmem
  | cons e rest ih =>
    intro maps
    rw [List.foldl_cons]
    rcases List.mem_cons.mp hmem with he | he
    · apply foldl_cleanup_snd_none
      rw [← he, cleanupStep_session_eq heap now maps (sid, ref) s hso,
        if_pos hexp, if_pos htr, hd]
      exact JsMap.get_del_self maps.2 (some d)
    · exact ih he _

theorem foldl_cleanup_fst_preserved (heap : List Obj) (now : Nat)
    (l : List (String × Nat)) (k : String)
    (h : ∀ e ∈ l, entryExpiresB heap now e = true → e.1 ≠ k) :
    ∀ maps, (l.foldl (cleanupStep heap now) maps).1.get k =
      maps.1.get k := by
  induction l with
  | nil => intro maps; rfl
  | cons e rest ih =>
    intro maps
    rw [List.foldl_cons]
    rw [ih (fun e' he' => h e' (List.mem_cons_of_mem _ he'))]
    exact cleanupStep_fst_get heap now maps e k (h e (List.mem_cons_self _ _))

theorem foldl_cleanup_snd_preserved (heap : List Obj) (now : Nat)
    (l : List (String × Nat)) (dk : Option String)
    (h : ∀ e ∈ l, entryExpiresB heap now e = true →
      entryDiscordKey heap e ≠ some dk) :
    ∀ maps, (l.foldl (cleanupStep heap now) maps).2.get dk =
      maps.2.get dk := by
  induction l with
  | nil => intro maps; rfl
  | cons e rest ih =>
    intro maps
    rw [List.foldl_cons]
    rw [ih (fun e' he' => h e' (List.mem_cons_of_mem _ he'))]
    exact cleanupStep_snd_get heap now maps e dk (h e (List.mem_cons_self _ _))

/-! ## Claims about the relay queue (`src/routes/dashboard.js`) -/

/-- Claim C5 (confirmed): enqueuing two role updates for the same
`userId` before any drain leaves exactly one pending entry for it,
carrying the later `totalNFTs` value (insert-or-overwrite keyed by
`userId`, last-write-wins); entries for other user ids are unaffected. -/
theorem roleUpdate_last_write_wins (q : JsMap String PendingUpdate)
    (u : String) (t1 t2 : Int) (n1 n2 : Nat)
    (hu : u ≠ "") (hnd : JsMap.keysNodup q) :
    (roleUpdatePost q (some u) (some t1) n1).1 = .ok ∧
    (roleUpdatePost (roleUpdatePost q (some u) (some t1) n1).2
        (some u) (some t2) n2).1 = .ok ∧
    JsMap.countKey (roleUpdatePost (roleUpdatePost q (some u) (some t1) n1).2
        (some u) (some t2) n2).2 u = 1 ∧
    (roleUpdatePost (roleUpdatePost q (some u) (some t1) n1).2
        (some u) (some t2) n2).2.get u = some ⟨u, t2, n2⟩ ∧
    ∀ k, k ≠ u →
      (roleUpdatePost (roleUpdatePost q (some u) (some t1) n1).2
          (some u) (some t2) n2).2.get k = q.get k := by
  have htr : optTruthy (some u) = true := by simp [optTruthy, hu]
  have hred : ∀ (q' : JsMap String PendingUpdate) (t : Int) (nn : Nat),
      roleUpdatePost q' (some u) (some t) nn =
        (.ok, q'.set u ⟨u, t, nn⟩) := by
    intro q' t nn
    simp [roleUpdatePost, htr]
  simp only [hred]
  refine ⟨trivial, trivial, ?_, ?_, ?_⟩
  · exact JsMap.countKey_set_self _ u _ (JsMap.keysNodup_set q u _ hnd)
  · exact JsMap.get_set_self _ u _
  · intro k hk
    rw [JsMap.get_set_ne _ u k _ hk, JsMap.get_set_ne _ u k _ hk]

/-- Witness for C5 at a concrete queue. -/
theorem roleUpdate_last_write_wins_witness :
    JsMap.countKey (roleUpdatePost (roleUpdatePost [] (some "d1") (some 5) 1).2
        (some "d1") (some 7) 2).2 "d1" = 1 ∧
    (roleUpdatePost (roleUpdatePost [] (some "d1") (some 5) 1).2
        (some "d1") (some 7) 2).2.get "d1" = some ⟨"d1", 7, 2⟩ ∧
    (roleUpdatePost (roleUpdatePost [] (some "d1") (some 5) 1).2
        (some "d1") (some 7) 2).2.get "x" = JsMap.get [] "x" := by
  have h := roleUpdate_last_write_wins [] "d1" 5 7 1 2 (by decide) (by decide)
  exact ⟨h.2.2.1, h.2.2.2.1, h.2.2.2.2 "x" (by decide)⟩

/-- Claim C6 (confirmed): `GET /pending-role-updates` returns every
pending entry (the queue's values in insertion order) and clears the
queue as a side effect; a second drain before any new enqueue returns an
empty list. -/
theorem drainAll_returns_and_clears (q : JsMap String PendingUpdate) :
    (drainPendingRoleUpdates q).1 = q.valuesList ∧
    (drainPendingRoleUpdates q).2 = [] ∧
    (∀ k v, q.get k = some v → v ∈ (drainPendingRoleUpdates q).1) ∧
    (drainPendingRoleUpdates (drainPendingRoleUpdates q).2).1 = [] := by
  refine ⟨rfl, rfl, ?_, rfl⟩
  intro k v h
  exact List.mem_map_of_mem Prod.snd (JsMap.get_mem q k v h)

/-- Witness for C6 at a concrete queue. -/
theorem drainAll_returns_and_clears_witness :
    (drainPendingRoleUpdates [("d1", ⟨"d1", 10, 5⟩)]).1 = [⟨"d1", 10, 5⟩] ∧
    (drainPendingRoleUpdates [("d1", ⟨"d1", 10, 5⟩)]).2 = [] ∧
    (⟨"d1", 10, 5⟩ : PendingUpdate) ∈
      (drainPendingRoleUpdates [("d1", ⟨"d1", 10, 5⟩)]).1 ∧
    (drainPendingRoleUpdates
      (drainPendingRoleUpdates [("d1", ⟨"d1", 10, 5⟩)]).2).1 = [] := by
  have h := drainAll_returns_and_clears [("d1", ⟨"d1", 10, 5⟩)]
  exact ⟨h.1, h.2.1, h.2.2.1 "d1" ⟨"d1", 10, 5⟩ (by decide), h.2.2.2⟩

/-- Claim C9 counterexample: a request with `userId` present but equal to
the empty string (and `totalNFTs` defined) is still rejected with 400,
because JS `!userId` is also true for `""` — refuting "rejects with 400
only when userId is absent or totalNFTs is the undefined value". -/
theorem roleUpdate_empty_userId_cx :
    (roleUpdatePost [] (some "") (some 5) 0).1 =
      .badRequest "Missing required fields" ∧
    (some "" : Option String) ≠ none ∧ (some (5 : Int)) ≠ none := by
  decide

/-- Claim C9 (amended): `POST /role-update` rejects with 400 exactly when
`userId` is falsy (absent or the empty string) or `totalNFTs` is the
undefined value; in particular a request with a truthy `userId` and
`totalNFTs = 0` is accepted and enqueues a pending entry with
`totalNFTs = 0`. -/
theorem roleUpdate_validation_amended (q q' : JsMap String PendingUpdate)
    (userId : Option String) (totalNFTs : Option Int) (now now' : Nat)
    (u : String) (hu : u ≠ "") :
    ((roleUpdatePost q userId totalNFTs now).1 =
        .badRequest "Missing required fields" ↔
      (optTruthy userId = false ∨ totalNFTs = none)) ∧
    (roleUpdatePost q' (some u) (some 0) now').1 = .ok ∧
    (roleUpdatePost q' (some u) (some 0) now').2.get u =
      some ⟨u, 0, now'⟩ := by
  have htr : optTruthy (some u) = true := by simp [optTruthy, hu]
  have hnc : ¬ (¬ optTruthy (some u) = true ∨ (some (0 : Int)) = none) := by
    rintro (hx | hx)
    · exact hx htr
    · exact Option.noConfusion hx
  refine ⟨⟨?_, ?_⟩, ?_, ?_⟩
  · intro hbad
    by_contra hno
    push_neg at hno
    obtain ⟨h1, h2⟩ := hno
    have h1' : optTruthy userId = true := by
      cases hv : optTruthy userId
      · exact absurd hv h1
      · rfl
    cases userId with
    | none => simp [optTruthy] at h1'
    | some u0 =>
      cases totalNFTs with
      | none => exact h2 rfl
      | some t0 =>
        have hnc0 : ¬ (¬ optTruthy (some u0) = true ∨
            (some t0 : Option Int) = none) := by
          rintro (hx | hx)
          · exact hx h1'
          · exact Option.noConfusion hx
        unfold roleUpdatePost at hbad
        rw [if_neg hnc0] at hbad
        simp at hbad
  · intro hor
    have hc : ¬ optTruthy userId = true ∨ totalNFTs = none := by
      rcases hor with h | h
      · left; simp [h]
      · right; exact h
    unfold roleUpdatePost
    rw [if_pos hc]
  · unfold roleUpdatePost
    rw [if_neg hnc]
  · unfold roleUpdatePost
    rw [if_neg hnc]
    exact JsMap.get_set_self q' u _

/-- Witness for the amended C9 at concrete requests. -/
theorem roleUpdate_validation_amended_witness :
    ((roleUpdatePost [] (some "d1") (some 3) 0).1 =
        .badRequest "Missing required fields" ↔
      (optTruthy (some "d1") = false ∨ (some (3 : Int)) = none)) ∧
    (roleUpdatePost [] (some "d1") (some 0) 9).1 = .ok ∧
    (roleUpdatePost [] (some "d1") (some 0) 9).2.get "d1" =
      some ⟨"d1", 0, 9⟩ := by
  have h := roleUpdate_validation_amended [] [] (some "d1") (some 3) 0 9
    "d1" (by decide)
  exact ⟨h.1, h.2.1, h.2.2⟩

/-! ## Claims about the Discord webhook (`POST /api/discord/webhook`) -/

/-- Claim C8 counterexample: a Discord-link request with `discordId`
missing is not rejected: it responds `{success: true}` and stores a
discord-entry record — refuting "fails with 400 and creates no
session". -/
theorem webhook_missing_fields_success_cx :
    (discordWebhook emptyState (some "s1") (some "alice") none 0).1.success
      = true ∧
    (discordWebhook emptyState (some "s1") (some "alice") none 0).2.discordSessions
      = [(some "s1", 0)] ∧
    (discordWebhook emptyState (some "s1") (some "alice") none 0).2.heap
      = [Obj.discordEntry ⟨none, some "alice", 0⟩] := by
  decide

/-- Claim C8 (amended): the final-variant webhook performs no validation:
every request — missing fields included — succeeds with `{success: true,
sessionId, userId: discordId}`, stores a `{userId, username, timestamp}`
record under the *session id* in the Discord index, and adds nothing to
the primary session index.  (Earlier superseded server variants in the
same file do validate and 400; the final variant does not.) -/
theorem webhook_no_validation_amended (st : ServerState)
    (sessionId username discordId : Option String) (now : Nat) :
    (discordWebhook st sessionId username discordId now).1 =
      ⟨true, sessionId, discordId⟩ ∧
    (discordWebhook st sessionId username discordId now).2.sessions =
      st.sessions ∧
    (discordWebhook st sessionId username discordId now).2.discordSessions.get
      sessionId = some st.heap.length ∧
    (discordWebhook st sessionId username discordId now).2.heap =
      st.heap ++ [Obj.discordEntry ⟨discordId, username, now⟩] := by
  refine ⟨rfl, rfl, ?_, rfl⟩
  exact JsMap.get_set_self st.discordSessions sessionId st.heap.length

/-- Claim C3 counterexample: after a Discord-link webhook call carrying a
`discordId`, the session is reachable neither by its primary id (the
primary index is untouched) nor by the discord id (the webhook keys the
Discord index by *session id*), so lookup-by-id and lookup-by-discordId
cannot return the same record — and a later wallet upsert through the
primary index can never be seen through a discordId lookup. -/
theorem webhook_session_not_shared_cx :
    (discordWebhook emptyState (some "s1") (some "alice") (some "d1")
      0).2.sessions.get "s1" = none ∧
    (discordWebhook emptyState (some "s1") (some "alice") (some "d1")
      0).2.discordSessions.get (some "d1") = none ∧
    (discordWebhook emptyState (some "s1") (some "alice") (some "d1")
      0).2.discordSessions.get (some "s1") = some 0 ∧
    (discordWebhook emptyState (some "s1") (some "alice") (some "d1")
      0).2.heap[0]? =
      some (Obj.discordEntry ⟨some "d1", some "alice", 0⟩) := by
  decide

/-! ## Claims about wallet verification: counterexample to C1 -/

/-- Claim C1 counterexample: on a session whose wallet list is empty, a
verification whose chain queries return `nftBalance = 0` and no staked
tokens does not fail: the endpoint succeeds, upserts a wallet record
with `totalNFTs = 0` into the session, and posts one role update with
`totalNFTs = 0` — refuting "fails with NoHoldingsFound and leaves the
session's wallet list unchanged" (no `NoHoldingsFound` path exists). -/
theorem zeroHoldings_verification_succeeds_cx :
    verifyWallet
      ⟨[Obj.discordEntry ⟨some "d1", some "alice", 0⟩,
        Obj.session ⟨"s1", some "d1", some "alice", [], 5, some 5⟩],
       [("s1", 1)], [(some "s1", 0), (some "d1", 1)]⟩
      "s1" (some "0xAbC") 10 (.ok (0, ⟨[], 0, 0, false⟩)) (.ok ()) =
      (.ok ⟨"s1", some "d1", some "alice",
          [⟨"0xAbC", 0, [], 0, 0, false, 0⟩], 5, some 5⟩
        ⟨"0xAbC", 0, [], 0, 0, false, 0⟩ none,
       ⟨[Obj.discordEntry ⟨some "d1", some "alice", 0⟩,
         Obj.session ⟨"s1", some "d1", some "alice",
           [⟨"0xAbC", 0, [], 0, 0, false, 0⟩], 5, some 5⟩],
        [("s1", 1)], [(some "s1", 0), (some "d1", 1)]⟩,
       [⟨"ROLE_UPDATE", some "d1", 0⟩]) := by
  decide

/-- Claim C1 (amended): a verification whose chain queries return
`nftBalance = 0` and an empty staked-token list is handled like any
other success: the endpoint computes `totalNFTs = 0`, upserts the wallet
record into the session, posts one role update with `totalNFTs = 0`, and
responds success — no `NoHoldingsFound` rejection exists and the
session's wallet list is mutated. -/
theorem zeroHoldings_verification_upserts (st : ServerState)
    (sessionId a : String) (now p tr : Nat) (mintr : Bool)
    (dref ref : Nat) (dobj : Obj) (s : Session)
    (ha : a ≠ "")
    (hd : st.discordSessions.get (some sessionId) = some dref)
    (hdo : st.heap[dref]? = some dobj)
    (hs : st.sessions.get sessionId = some ref)
    (hso : st.heap[ref]? = some (Obj.session s)) :
    (verifyWallet st sessionId (some a) now
        (.ok (0, ⟨[], p, tr, mintr⟩)) (.ok ())).1 =
      .ok (updSession s (mkWalletInfo a 0 ⟨[], p, tr, mintr⟩))
        (mkWalletInfo a 0 ⟨[], p, tr, mintr⟩) none ∧
    (mkWalletInfo a 0 ⟨[], p, tr, mintr⟩).totalNFTs = 0 ∧
    (verifyWallet st sessionId (some a) now
        (.ok (0, ⟨[], p, tr, mintr⟩)) (.ok ())).2.1.heap[ref]? =
      some (Obj.session (updSession s (mkWalletInfo a 0 ⟨[], p, tr, mintr⟩))) ∧
    (verifyWallet st sessionId (some a) now
        (.ok (0, ⟨[], p, tr, mintr⟩)) (.ok ())).2.2 =
      [⟨"ROLE_UPDATE", dobj.userIdField, 0⟩] := by
  have hlt : ref < st.heap.length := (List.getElem?_eq_some.mp hso).1
  rw [verifyWallet_found st sessionId a now 0 ⟨[], p, tr, mintr⟩ (.ok ())
    dref ref dobj s ha hd hdo hs hso]
  dsimp only
  exact ⟨rfl, rfl, List.getElem?_set_eq_of_lt _ hlt, rfl⟩

/-- Witness for the amended C1 at a concrete state. -/
theorem zeroHoldings_verification_upserts_witness :
    (verifyWallet exState "s1" (some "0xabc") 10
        (.ok (0, ⟨[], 0, 0, false⟩)) (.ok ())).1 =
      .ok ⟨"s1", some "d1", some "alice",
          [⟨"0xabc", 0, [], 0, 0, false, 0⟩], 5, some 5⟩
        ⟨"0xabc", 0, [], 0, 0, false, 0⟩ none ∧
    (mkWalletInfo "0xabc" 0 ⟨[], 0, 0, false⟩).totalNFTs = 0 ∧
    (verifyWallet exState "s1" (some "0xabc") 10
        (.ok (0, ⟨[], 0, 0, false⟩)) (.ok ())).2.1.heap[1]? =
      some (Obj.session ⟨"s1", some "d1", some "alice",
        [⟨"0xabc", 0, [], 0, 0, false, 0⟩], 5, some 5⟩) ∧
    (verifyWallet exState "s1" (some "0xabc") 10
        (.ok (0, ⟨[], 0, 0, false⟩)) (.ok ())).2.2 =
      [⟨"ROLE_UPDATE", some "d1", 0⟩] := by
  have h := zeroHoldings_verification_upserts exState "s1" "0xabc" 10 0 0
    false 0 1 (Obj.discordEntry ⟨some "d1", some "alice", 0⟩) exSession
    (by decide) (by decide) (by decide) (by decide) (by decide)
  exact ⟨h.1, h.2.1, h.2.2.1, h.2.2.2⟩

/-- Claim C2 (confirmed): the verification endpoint's wallet upsert keeps
at most one record per case-insensitive address: it preserves pairwise
distinct lowercased addresses; re-verifying an address that already has
a record (in any letter case) replaces that record in place at the same
position, leaving the list length unchanged; a new address appends one
record.  The session record is mutated in place on the heap and the
`sessions` index is unchanged. -/
theorem wallet_upsert_unique_addresses (st : ServerState)
    (sessionId a : String) (now n : Nat) (info : StakerInfo)
    (webhook : Except String Unit) (dref ref : Nat) (dobj : Obj)
    (s : Session)
    (ha : a ≠ "")
    (hd : st.discordSessions.get (some sessionId) = some dref)
    (hdo : st.heap[dref]? = some dobj)
    (hs : st.sessions.get sessionId = some ref)
    (hso : st.heap[ref]? = some (Obj.session s)) :
    (verifyWallet st sessionId (some a) now (.ok (n, info))
        webhook).2.1.heap[ref]? =
      some (Obj.session (updSession s (mkWalletInfo a n info))) ∧
    (verifyWallet st sessionId (some a) now (.ok (n, info))
        webhook).2.1.sessions = st.sessions ∧
    (walletsUniqueCI s.wallets →
      walletsUniqueCI (upsertWalletList s.wallets (mkWalletInfo a n info))) ∧
    (∀ i, findWalletIndex s.wallets a = some i →
      upsertWalletList s.wallets (mkWalletInfo a n info) =
        s.wallets.set i (mkWalletInfo a n info) ∧
      (upsertWalletList s.wallets (mkWalletInfo a n info)).length =
        s.wallets.length) ∧
    (findWalletIndex s.wallets a = none →
      upsertWalletList s.wallets (mkWalletInfo a n info) =
        s.wallets ++ [mkWalletInfo a n info]) := by
  have hlt : ref < st.heap.length := (List.getElem?_eq_some.mp hso).1
  rw [verifyWallet_found st sessionId a now n info webhook dref ref dobj s
    ha hd hdo hs hso]
  cases webhook with
  | ok u =>
    dsimp only
    refine ⟨List.getElem?_set_eq_of_lt _ hlt, rfl, ?_, ?_, ?_⟩
    · exact fun hq => upsertWalletList_unique _ _ hq
    · intro i hi
      refine ⟨upsertWalletList_eq_set _ _ i hi, ?_⟩
      rw [upsertWalletList_eq_set _ _ i hi, List.length_set]
    · exact fun hn => upsertWalletList_eq_append _ _ hn
  | error e =>
    dsimp only
    refine ⟨List.getElem?_set_eq_of_lt _ hlt, rfl, ?_, ?_, ?_⟩
    · exact fun hq => upsertWalletList_unique _ _ hq
    · intro i hi
      refine ⟨upsertWalletList_eq_set _ _ i hi, ?_⟩
      rw [upsertWalletList_eq_set _ _ i hi, List.length_set]
    · exact fun hn => upsertWalletList_eq_append _ _ hn

/-- Witness for C2: re-verifying `0xABC` as `0xabc` replaces the record
in place at position 0, keeps length 1, and keeps addresses unique. -/
theorem wallet_upsert_unique_addresses_witness :
    (verifyWallet exState "s1" (some "0xabc") 10 (.ok (2, ⟨[], 0, 0, false⟩))
        (.ok ())).2.1.heap[1]? =
      some (Obj.session ⟨"s1", some "d1", some "alice",
        [⟨"0xabc", 2, [], 0, 0, false, 2⟩], 5, some 5⟩) ∧
    (verifyWallet exState "s1" (some "0xabc") 10 (.ok (2, ⟨[], 0, 0, false⟩))
        (.ok ())).2.1.sessions = exState.sessions ∧
    walletsUniqueCI (upsertWalletList exSession.wallets exWallet) ∧
    upsertWalletList exSession.wallets exWallet =
      exSession.wallets.set 0 exWallet ∧
    (upsertWalletList exSession.wallets exWallet).length =
      exSession.wallets.length := by
  have h := wallet_upsert_unique_addresses exState "s1" "0xabc" 10 2
    ⟨[], 0, 0, false⟩ (.ok ()) 0 1
    (Obj.discordEntry ⟨some "d1", some "alice", 0⟩) exSession
    (by decide) (by decide) (by decide) (by decide) (by decide)
  exact ⟨h.1, h.2.1, h.2.2.1 (by decide), (h.2.2.2.1 0 (by decide)).1,
    (h.2.2.2.1 0 (by decide)).2⟩

/-- Claim C4 (confirmed): every successful wallet verification computes
`totalNFTs = nftBalance + |stakedTokenIds|` on the returned (and stored)
wallet record, and posts exactly one role update, for the discord
session's user, carrying that `totalNFTs`. -/
theorem verify_totalNFTs_single_emission (st : ServerState)
    (sessionId a : String) (now n : Nat) (info : StakerInfo)
    (webhook : Except String Unit) (s' : Session) (wi : WalletInfo)
    (we : Option String)
    (hok : (verifyWallet st sessionId (some a) now (.ok (n, info))
      webhook).1 = .ok s' wi we) :
    wi.totalNFTs = n + info.stakedTokens.length ∧
    wi.nftBalance = n ∧
    (verifyWallet st sessionId (some a) now (.ok (n, info)) webhook).2.2 =
      [⟨"ROLE_UPDATE", discordUserOf st sessionId, wi.totalNFTs⟩] := by
  by_cases ha : a = ""
  · subst ha
    rw [verifyWallet_addr_empty] at hok
    simp at hok
  · cases hd : st.discordSessions.get (some sessionId) with
    | none =>
      rw [verifyWallet_no_discord st sessionId a now _ webhook ha hd] at hok
      simp at hok
    | some dref =>
      cases hdo : st.heap[dref]? with
      | none =>
        rw [verifyWallet_dangling st sessionId a now _ webhook dref ha hd
          hdo] at hok
        simp at hok
      | some dobj =>
        have huser : discordUserOf st sessionId = dobj.userIdField := by
          simp [discordUserOf, hd, hdo]
        cases hs : st.sessions.get sessionId with
        | none =>
          rw [verifyWallet_create st sessionId a now n info webhook dref
            dobj ha hd hdo hs] at hok ⊢
          cases webhook with
          | ok u =>
            dsimp only at hok ⊢
            injection hok with h1 h2 h3
            subst h2
            exact ⟨rfl, rfl, by rw [huser]⟩
          | error e =>
            dsimp only at hok ⊢
            injection hok with h1 h2 h3
            subst h2
            exact ⟨rfl, rfl, by rw [huser]⟩
        | some ref =>
          cases hso : st.heap[ref]? with
          | none =>
            rw [verifyWallet_badref_none st sessionId a now n info webhook
              dref ref dobj ha hd hdo hs hso] at hok
            simp at hok
          | some obj =>
            cases obj with
            | discordEntry de =>
              rw [verifyWallet_badref_discord st sessionId a now n info
                webhook dref ref dobj de ha hd hdo hs hso] at hok
              simp at hok
            | session s =>
              rw [verifyWallet_found st sessionId a now n info webhook dref
                ref dobj s ha hd hdo hs hso] at hok ⊢
              cases webhook with
              | ok u =>
                dsimp only at hok ⊢
                injection hok with h1 h2 h3
                subst h2
                exact ⟨rfl, rfl, by rw [huser]⟩
              | error e =>
                dsimp only at hok ⊢
                injection hok with h1 h2 h3
                subst h2
                exact ⟨rfl, rfl, by rw [huser]⟩

/-- Witness for C4: `nftBalance = 3` with staked tokens `[7, 8]` yields
`totalNFTs = 5` and one role update for `d1` with `totalNFTs = 5`. -/
theorem verify_totalNFTs_single_emission_witness :
    WalletInfo.totalNFTs ⟨"0xAbC", 3, ["7", "8"], 0, 0, false, 5⟩ =
      3 + 2 ∧
    WalletInfo.nftBalance ⟨"0xAbC", 3, ["7", "8"], 0, 0, false, 5⟩ = 3 ∧
    (verifyWallet exState "s1" (some "0xAbC") 10
        (.ok (3, ⟨[7, 8], 0, 0, false⟩)) (.ok ())).2.2 =
      [⟨"ROLE_UPDATE", discordUserOf exState "s1", 5⟩] := by
  have h := verify_totalNFTs_single_emission exState "s1" "0xAbC" 10 3
    ⟨[7, 8], 0, 0, false⟩ (.ok ())
    ⟨"s1", some "d1", some "alice",
      [⟨"0xAbC", 3, ["7", "8"], 0, 0, false, 5⟩], 5, some 5⟩
    ⟨"0xAbC", 3, ["7", "8"], 0, 0, false, 5⟩ none (by decide)
  exact ⟨h.1, h.2.1, h.2.2⟩

/-- Claim C10 (confirmed): when the chain queries succeed but the relay
post to the bot fails, the endpoint still responds success with the
updated session, the wallet detail and a `webhookError` field, and the
upserted wallet remains in the stored session — relay failure never
rolls back or blocks the session mutation. -/
theorem verify_webhook_failure_keeps_upsert (st : ServerState)
    (sessionId a : String) (now n : Nat) (info : StakerInfo) (err : String)
    (dref ref : Nat) (dobj : Obj) (s : Session)
    (ha : a ≠ "")
    (hd : st.discordSessions.get (some sessionId) = some dref)
    (hdo : st.heap[dref]? = some dobj)
    (hs : st.sessions.get sessionId = some ref)
    (hso : st.heap[ref]? = some (Obj.session s)) :
    (verifyWallet st sessionId (some a) now (.ok (n, info))
        (.error err)).1 =
      .ok (updSession s (mkWalletInfo a n info))
        (mkWalletInfo a n info) (some err) ∧
    (verifyWallet st sessionId (some a) now (.ok (n, info))
        (.error err)).2.1.sessions.get sessionId = some ref ∧
    (verifyWallet st sessionId (some a) now (.ok (n, info))
        (.error err)).2.1.heap[ref]? =
      some (Obj.session (updSession s (mkWalletInfo a n info))) := by
  have hlt : ref < st.heap.length := (List.getElem?_eq_some.mp hso).1
  rw [verifyWallet_found st sessionId a now n info (.error err) dref ref
    dobj s ha hd hdo hs hso]
  dsimp only
  exact ⟨rfl, hs, List.getElem?_set_eq_of_lt _ hlt⟩

/-- Witness for C10 at a concrete state and relay error. -/
theorem verify_webhook_failure_keeps_upsert_witness :
    (verifyWallet exState "s1" (some "0xabc") 10
        (.ok (2, ⟨[], 0, 0, false⟩)) (.error "ECONNREFUSED")).1 =
      .ok ⟨"s1", some "d1", some "alice",
          [⟨"0xabc", 2, [], 0, 0, false, 2⟩], 5, some 5⟩
        ⟨"0xabc", 2, [], 0, 0, false, 2⟩ (some "ECONNREFUSED") ∧
    (verifyWallet exState "s1" (some "0xabc") 10
        (.ok (2, ⟨[], 0, 0, false⟩)) (.error "ECONNREFUSED")).2.1.sessions.get
      "s1" = some 1 ∧
    (verifyWallet exState "s1" (some "0xabc") 10
        (.ok (2, ⟨[], 0, 0, false⟩)) (.error "ECONNREFUSED")).2.1.heap[1]? =
      some (Obj.session ⟨"s1", some "d1", some "alice",
        [⟨"0xabc", 2, [], 0, 0, false, 2⟩], 5, some 5⟩) := by
  have h := verify_webhook_failure_keeps_upsert exState "s1" "0xabc" 10 2
    ⟨[], 0, 0, false⟩ "ECONNREFUSED" 0 1
    (Obj.discordEntry ⟨some "d1", some "alice", 0⟩) exSession
    (by decide) (by decide) (by decide) (by decide) (by decide)
  exact ⟨h.1, h.2.1, h.2.2⟩

/-! ## Claim C7 counterexample -/

/-- Claim C7 counterexample: the sweeper deletes an expired session's
`discordId` key from the Discord index even when that key currently
points at a *different, fresh* session (reachable by creating two
sessions with the same discord id: the second overwrites the Discord
index entry).  Here the fresh session `"sB"` (lastActivity = now) was
present in both indexes before the sweep but is gone from the Discord
index afterwards — refuting "every session within the timeout is still
present in both". -/
theorem cleanup_evicts_fresh_session_cx :
    sessionExpired 86400001 (some 86400001) = false ∧
    JsMap.get (ServerState.sessions
      ⟨[Obj.session ⟨"sA", some "d", some "al", [], 0, some 0⟩,
        Obj.session ⟨"sB", some "d", some "bo", [], 0, some 86400001⟩],
       [("sA", 0), ("sB", 1)], [(some "d", 1)]⟩) "sB" = some 1 ∧
    JsMap.get (ServerState.discordSessions
      ⟨[Obj.session ⟨"sA", some "d", some "al", [], 0, some 0⟩,
        Obj.session ⟨"sB", some "d", some "bo", [], 0, some 86400001⟩],
       [("sA", 0), ("sB", 1)], [(some "d", 1)]⟩) (some "d") = some 1 ∧
    JsMap.get (ServerState.sessions (cleanupSessions 86400001
      ⟨[Obj.session ⟨"sA", some "d", some "al", [], 0, some 0⟩,
        Obj.session ⟨"sB", some "d", some "bo", [], 0, some 86400001⟩],
       [("sA", 0), ("sB", 1)], [(some "d", 1)]⟩)) "sB" = some 1 ∧
    JsMap.get (ServerState.discordSessions (cleanupSessions 86400001
      ⟨[Obj.session ⟨"sA", some "d", some "al", [], 0, some 0⟩,
        Obj.session ⟨"sB", some "d", some "bo", [], 0, some 86400001⟩],
       [("sA", 0), ("sB", 1)], [(some "d", 1)]⟩)) (some "d") = none := by
  decide

/-- Claim C7 (amended): after the sweeper runs at time `now`, every
session with `now - lastActivity > 24h` is gone from the primary index
and — when its `discordId` is truthy — its discord id is gone from the
Discord index; every session within the timeout keeps its primary-index
entry, and keeps its Discord-index entry provided no other `sessions`
entry carries the same discord id (without that proviso an expired
session sharing the discord id evicts the live session's Discord entry —
see the counterexample).  The final-variant wallet verification does not
refresh `lastActivity`. -/
theorem cleanup_removes_expired_amended (st : ServerState) (now : Nat)
    (hnd : JsMap.keysNodup st.sessions) :
    (∀ sid ref s, st.sessions.get sid = some ref →
      st.heap[ref]? = some (Obj.session s) →
      sessionExpired now s.lastActivity = true →
      (cleanupSessions now st).sessions.get sid = none ∧
      (∀ d, s.discordId = some d → d ≠ "" →
        (cleanupSessions now st).discordSessions.get (some d) = none)) ∧
    (∀ sid ref s, st.sessions.get sid = some ref →
      st.heap[ref]? = some (Obj.session s) →
      sessionExpired now s.lastActivity = false →
      (cleanupSessions now st).sessions.get sid = some ref ∧
      (∀ d, s.discordId = some d →
        st.discordSessions.get (some d) = some ref →
        (∀ e ∈ st.sessions, entryDiscordKey st.heap e = some (some d) →
          e = (sid, ref)) →
        (cleanupSessions now st).discordSessions.get (some d) = some ref)) := by
  constructor
  · intro sid ref s hget hso hexp
    have hmem : (sid, ref) ∈ st.sessions := JsMap.get_mem _ sid ref hget
    constructor
    · show (st.sessions.foldl (cleanupStep st.heap now)
        (st.sessions, st.discordSessions)).1.get sid = none
      exact foldl_cleanup_fst_expired st.heap now st.sessions sid ref s
        hso hexp hmem _
    · intro d hd hdt
      show (st.sessions.foldl (cleanupStep st.heap now)
        (st.sessions, st.discordSessions)).2.get (some d) = none
      exact foldl_cleanup_snd_expired st.heap now st.sessions sid ref s d
        hso hexp hd hdt hmem _
  · intro sid ref s hget hso hexp
    constructor
    · show (st.sessions.foldl (cleanupStep st.heap now)
        (st.sessions, st.discordSessions)).1.get sid = some ref
      rw [foldl_cleanup_fst_preserved st.heap now st.sessions sid ?hpres _]
      · exact hget
      case hpres =>
        intro e he hee hke
        have hgete := JsMap.get_of_mem_nodup st.sessions e hnd he
        rw [hke, hget] at hgete
        injection hgete with hgete
        unfold entryExpiresB at hee
        rw [← hgete, hso] at hee
        have : sessionExpired now s.lastActivity = true := hee
        rw [hexp] at this
        exact Bool.noConfusion this
    · intro d hd hdisc honly
      show (st.sessions.foldl (cleanupStep st.heap now)
        (st.sessions, st.discordSessions)).2.get (some d) = some ref
      rw [foldl_cleanup_snd_preserved st.heap now st.sessions (some d)
        ?hpres2 _]
      · exact hdisc
      case hpres2 =>
        intro e he hee hkey
        have heq := honly e he hkey
        subst heq
        unfold entryExpiresB at hee
        rw [hso] at hee
        have : sessionExpired now s.lastActivity = true := hee
        rw [hexp] at this
        exact Bool.noConfusion this

/-- Witness for the amended C7: with distinct discord ids, the expired
session `sA` leaves both indexes and the live session `sB` stays in
both. -/
theorem cleanup_removes_expired_amended_witness :
    (cleanupSessions 86400001 exSweepState).sessions.get "sA" = none ∧
    (cleanupSessions 86400001 exSweepState).discordSessions.get
      (some "dA") = none ∧
    (cleanupSessions 86400001 exSweepState).sessions.get "sB" = some 1 ∧
    (cleanupSessions 86400001 exSweepState).discordSessions.get
      (some "dB") = some 1 := by
  have h := cleanup_removes_expired_amended exSweepState 86400001 (by decide)
  have hA := h.1 "sA" 0 ⟨"sA", some "dA", some "al", [], 0, some 0⟩
    (by decide) (by decide) (by decide)
  have hB := h.2 "sB" 1 ⟨"sB", some "dB", some "bo", [], 0, some 86400001⟩
    (by decide) (by decide) (by decide)
  exact ⟨hA.1, hA.2 "dA" rfl (by decide), hB.1,
    hB.2 "dB" rfl (by decide) (by decide)⟩

/-- Claim C3 (amended): for sessions created through `POST /api/session`
with a truthy `discordId`, the primary index (by the fresh session id)
and the Discord index (by discord id) hold the same heap reference, so a
wallet upsert performed through the primary index is visible through the
discord-id lookup; the Discord-link webhook does not have this property
(see the counterexample). -/
theorem createSession_shared_record (st : ServerState) (d sid : String)
    (username : Option String) (now now2 n : Nat) (a : String)
    (info : StakerInfo) (dref : Nat) (de : DiscordEntry)
    (hd : d ≠ "") (hsd : sid ≠ d) (ha : a ≠ "")
    (hw : st.discordSessions.get (some sid) = some dref)
    (hwo : st.heap[dref]? = some (Obj.discordEntry de)) :
    (createSession st (some d) username sid now).2.sessions.get sid =
      some st.heap.length ∧
    (createSession st (some d) username sid now).2.discordSessions.get
      (some d) = some st.heap.length ∧
    (createSession st (some d) username sid now).2.heap[st.heap.length]? =
      some (Obj.session ⟨sid, some d, username, [], now, some now⟩) ∧
    (verifyWallet (createSession st (some d) username sid now).2 sid
        (some a) now2 (.ok (n, info)) (.ok ())).2.1.sessions.get sid =
      some st.heap.length ∧
    (verifyWallet (createSession st (some d) username sid now).2 sid
        (some a) now2 (.ok (n, info)) (.ok ())).2.1.discordSessions.get
      (some d) = some st.heap.length ∧
    (verifyWallet (createSession st (some d) username sid now).2 sid
        (some a) now2 (.ok (n, info)) (.ok ())).2.1.heap[st.heap.length]? =
      some (Obj.session ⟨sid, some d, username,
        [mkWalletInfo a n info], now, some now⟩) := by
  have htr : optTruthy (some d) = true := by simp [optTruthy, hd]
  have hdref_lt : dref < st.heap.length := (List.getElem?_eq_some.mp hwo).1
  have h1 : (createSession st (some d) username sid now).2.sessions.get
      sid = some st.heap.length := by
    simp only [createSession]
    exact JsMap.get_set_self st.sessions sid st.heap.length
  have h2 : (createSession st (some d) username sid now).2.discordSessions.get
      (some d) = some st.heap.length := by
    simp only [createSession, htr, if_true]
    exact JsMap.get_set_self st.discordSessions (some d) st.heap.length
  have h3 : (createSession st (some d) username sid now).2.heap[st.heap.length]? =
      some (Obj.session ⟨sid, some d, username, [], now, some now⟩) := by
    simp only [createSession]
    exact List.getElem?_concat_length st.heap _
  have hd1 : (createSession st (some d) username sid now).2.discordSessions.get
      (some sid) = some dref := by
    simp only [createSession, htr, if_true]
    rw [JsMap.get_set_ne st.discordSessions (some d) (some sid)
      st.heap.length (by intro hx; exact hsd (Option.some.inj hx))]
    exact hw
  have hdo1 : (createSession st (some d) username sid now).2.heap[dref]? =
      some (Obj.discordEntry de) := by
    simp only [createSession]
    rw [List.getElem?_append, if_pos hdref_lt]
    exact hwo
  have hlt : st.heap.length <
      (createSession st (some d) username sid now).2.heap.length := by
    simp [createSession]
  rw [verifyWallet_found (createSession st (some d) username sid now).2
    sid a now2 n info (.ok ()) dref st.heap.length (Obj.discordEntry de)
    ⟨sid, some d, username, [], now, some now⟩ ha hd1 hdo1 h1 h3]
  dsimp only
  exact ⟨h1, h2, h3, h1, h2, List.getElem?_set_eq_of_lt _ hlt⟩

/-- Witness for the amended C3: webhook entry for `s1`, then
`POST /api/session` with discord id `d1`, then a wallet verification —
the mutation is visible through both indexes. -/
theorem createSession_shared_record_witness :
    (createSession exWebhookState (some "d1") (some "alice") "s1"
      5).2.sessions.get "s1" = some 1 ∧
    (createSession exWebhookState (some "d1") (some "alice") "s1"
      5).2.discordSessions.get (some "d1") = some 1 ∧
    (createSession exWebhookState (some "d1") (some "alice") "s1"
      5).2.heap[1]? =
      some (Obj.session ⟨"s1", some "d1", some "alice", [], 5, some 5⟩) ∧
    (verifyWallet (createSession exWebhookState (some "d1") (some "alice")
        "s1" 5).2 "s1" (some "0xabc") 10 (.ok (1, ⟨[], 0, 0, false⟩))
        (.ok ())).2.1.sessions.get "s1" = some 1 ∧
    (verifyWallet (createSession exWebhookState (some "d1") (some "alice")
        "s1" 5).2 "s1" (some "0xabc") 10 (.ok (1, ⟨[], 0, 0, false⟩))
        (.ok ())).2.1.discordSessions.get (some "d1") = some 1 ∧
    (verifyWallet (createSession exWebhookState (some "d1") (some "alice")
        "s1" 5).2 "s1" (some "0xabc") 10 (.ok (1, ⟨[], 0, 0, false⟩))
        (.ok ())).2.1.heap[1]? =
      some (Obj.session ⟨"s1", some "d1", some "alice",
        [mkWalletInfo "0xabc" 1 ⟨[], 0, 0, false⟩], 5, some 5⟩) := by
  have h := createSession_shared_record exWebhookState "d1" "s1"
    (some "alice") 5 10 1 "0xabc" ⟨[], 0, 0, false⟩ 0
    ⟨some "d1", some "alice", 0⟩ (by decide) (by decide) (by decide)
    (by decide) (by decide)
  exact ⟨h.1, h.2.1, h.2.2.1, h.2.2.2.1, h.2.2.2.2.1, h.2.2.2.2.2⟩

end Deape
